import Mathlib

/-!
# Verification of the git-diary activity-aggregation and diary-commit pipeline

Shallow embedding of the core logic of `src/extension.js` (the evolved
variant: `updateDiaryEntry`, `shouldIgnorePath`, `trackDocumentChanges`,
`trackAllChanges`, `generateActivityContent`, `logActivity`) and of the
event-based tracker `trackChanges` from the earlier variant.

Modelling conventions:
* JS strings are Lean `String`s; `s.length` / `s.slice` operate on
  characters (the JS code-unit distinction does not matter for the
  properties below).
* Timestamps (`new Date()`) are abstract instants modelled as `Nat`
  (seconds); locale formatting of an instant is modelled by explicit
  zero-padded rendering functions, and where the code directly
  interpolates a locale-formatted date/time string, that string is a
  parameter.
* The base64 transport encoding is modelled as the identity
  (decode ∘ encode = id); all content is handled at the decoded level.
* Remote I/O (`axios.get`/`axios.put`) is modelled by passing the fetch
  outcome in as a value and returning the write request (or error) as a
  value.
-/

namespace GitDiary

/-! ## String and path helpers (models of JS / Node built-ins) -/

/-- Substring search on character lists: does `needle` occur inside `hay`?
Models JS `String.prototype.includes`. -/
def listContainsSub (hay needle : List Char) : Bool :=
  match hay with
  | [] => needle.isEmpty
  | _ :: t => needle.isPrefixOf hay || listContainsSub t needle

/-- Models JS `hay.includes(needle)`. -/
def strContains (hay needle : String) : Bool :=
  listContainsSub hay.data needle.data

/-- Accumulator loop for `basename`: keeps the characters seen since the
last `/`. -/
def basenameGo : List Char → List Char → List Char
  | [], acc => acc.reverse
  | c :: t, acc => if c = '/' then basenameGo t [] else basenameGo t (c :: acc)

/-- Models Node `path.basename` for slash-separated paths without a
trailing slash: the component after the last `/`. -/
def basename (p : String) : String :=
  String.mk (basenameGo p.data [])

/-- Characters of a path strictly before its last `/`, or `none` when the
path has no `/`. -/
def dirnameData : List Char → Option (List Char)
  | [] => none
  | c :: t =>
    match dirnameData t with
    | some rest => some (c :: rest)
    | none => if c = '/' then some [] else none

/-- Models Node `path.dirname`: the text before the last slash, `"."` when
there is no slash (root edge cases simplified). -/
def dirname (p : String) : String :=
  match dirnameData p.data with
  | some rest => String.mk rest
  | none => "."

/-- Models Node `path.relative root target` for the cases arising here:
empty when `target = root`, the remainder when `target` lies under
`root/`, and `target` itself otherwise. -/
def relativePath (root target : String) : String :=
  if target = root then ""
  else if (root ++ "/").data.isPrefixOf target.data then
    String.mk (target.data.drop (root ++ "/").data.length)
  else target

/-- Zero-padded two-digit rendering of a number below 100. -/
def pad2 (n : Nat) : String :=
  if n < 10 then "0" ++ toString n else toString n

/-- Models `Date#toLocaleTimeString("en-US", {hour: "2-digit", minute:
"2-digit", hour12: false})` on an instant given as seconds within the
day: `HH:MM`. -/
def formatHM (ts : Nat) : String :=
  pad2 (ts / 3600 % 24) ++ ":" ++ pad2 (ts % 3600 / 60)

/-! ## DiaryStore: `updateDiaryEntry` (src/extension.js lines 279-319) -/

/-- Rendered entry header plus aggregated content:
`` `## ${timeString}\n${content}` `` (the tail of line 308). -/
def renderEntry (timeString content : String) : String :=
  "## " ++ timeString ++ "\n" ++ content

/-- Lines 307-308 of `updateDiaryEntry`:
`const entrySeparator = existingContent ? "\n\n" : "";`
`const newContent = ...existing ++ separator ++ header ++ content...`.
A JS string is truthy exactly when non-empty. -/
def appendContent (existingContent timeString content : String) : String :=
  existingContent ++ (if existingContent = "" then "" else "\n\n") ++
    renderEntry timeString content

/-- Outcome of the `axios.get` fetch of the dated document, as observed by
`updateDiaryEntry`: success carries the revision token (`data.sha`) and
the decoded content; a 404 is `notFound`; any other failure carries an
opaque error code. -/
inductive FetchResult where
  | found (sha : String) (content : String)
  | notFound
  | failed (err : Nat)
  deriving DecidableEq, Repr

/-- The `axios.put` request body assembled by `updateDiaryEntry`:
decoded content plus `sha: sha || undefined` (`none` = field omitted,
i.e. a create). -/
structure WriteRequest where
  content : String
  sha : Option String
  deriving DecidableEq, Repr

/-- Model of `updateDiaryEntry` (lines 279-319), given the outcome of the
fetch of today's document: a 404 leaves `sha` undefined and
`existingContent = ""`; any other fetch failure is rethrown (line 300);
otherwise the write carries `sha || undefined` (line 315), where `||`
maps a falsy (empty) string to `undefined`. -/
def updateDiaryEntry (timeString content : String) (fetch : FetchResult) :
    Except Nat WriteRequest :=
  match fetch with
  | .failed e => .error e
  | .notFound => .ok ⟨appendContent "" timeString content, none⟩
  | .found sha existing =>
      .ok ⟨appendContent existing timeString content,
           if sha = "" then none else some sha⟩

/-! ## PathFilter: `shouldIgnorePath` (src/extension.js lines 324-336) -/

/-- An entry of the combined ignore list. A JS string pattern matches by
substring (`filePath.includes(pattern)`); a `$`-anchored regex such as
`/\.env$/` matches by string suffix; any other user-supplied regex is an
arbitrary Boolean predicate (`pattern.test(filePath)`). -/
inductive IgnorePattern where
  | substr (s : String)
  | endsWith (s : String)
  | regex (test : String → Bool)

/-- One pattern applied to one path (the body of the `some` callback,
lines 331-335). -/
def patternMatches (pat : IgnorePattern) (filePath : String) : Bool :=
  match pat with
  | .substr s => strContains filePath s
  | .endsWith s => s.data.isSuffixOf filePath.data
  | .regex test => test filePath

/-- The built-in list `ignoreFilepath` (line 241):
`["/node_modules/", /\.env$/, "/dist/", /\.log$/]`. -/
def ignoreFilepath : List IgnorePattern :=
  [.substr "/node_modules/", .endsWith ".env", .substr "/dist/", .endsWith ".log"]

/-- `shouldIgnorePath` (lines 324-336): built-in patterns unioned with the
user-configured `gitDiary.ignoredPaths` (here the parameter
`userPatterns`), short-circuit `some`. -/
def shouldIgnorePath (userPatterns : List IgnorePattern) (filePath : String) : Bool :=
  (ignoreFilepath ++ userPatterns).any fun pat => patternMatches pat filePath

/-! ## ChangeRecord and the shared changelog -/

/-- One record pushed into `intervalChangeLog`: either
`{type: "code_change", snippet, lines, timestamp}` (lines 366-373) or
`{type: "file_operation", operation, timestamp}` (lines 402-406 /
419-424 / 428-434). -/
inductive ChangeRecord where
  | codeChange (snippet : String) (lines : Nat) (timestamp : Nat)
  | fileOperation (operation : String) (timestamp : Nat)
  deriving DecidableEq, Repr

/-- The record's JS `type` field. -/
def ChangeRecord.kind : ChangeRecord → String
  | .codeChange _ _ _ => "code_change"
  | .fileOperation _ _ => "file_operation"

/-- `intervalChangeLog` (line 238): a JS object mapping file paths to
arrays of records, modelled as an association list in key-insertion
order (JS objects enumerate string keys in insertion order). -/
abbrev Changelog : Type := List (String × List ChangeRecord)

/-- The object's keys, in insertion order (`Object.keys`). -/
def keys (cl : Changelog) : List String :=
  cl.map Prod.fst

/-- The record array stored under `p`, or `[]` when `p` is not a key
(`intervalChangeLog[p] || []`). -/
def recordsOf (cl : Changelog) (p : String) : List ChangeRecord :=
  match cl with
  | [] => []
  | (q, rs) :: t => if q = p then rs else recordsOf t p

/-- The assignment
`intervalChangeLog[p] = [...(intervalChangeLog[p] || []), ...recs]`:
extends the array under an existing key in place, or appends a new key
at the end. -/
def addRecords (cl : Changelog) (p : String) (recs : List ChangeRecord) : Changelog :=
  match cl with
  | [] => [(p, recs)]
  | (q, rs) :: t => if q = p then (q, rs ++ recs) :: t else (q, rs) :: addRecords t p recs

/-! ## ChangeTracker: the debounced recomputation
(src/extension.js lines 340-391) -/

/-- Models JS `text.split("\n")` structurally on the character list. -/
def splitLinesData : List Char → List (List Char)
  | [] => [[]]
  | c :: t =>
    if c = '\n' then [] :: splitLinesData t
    else
      match splitLinesData t with
      | [] => [[c]]
      | l :: ls => (c :: l) :: ls

/-- `text.split("\n")` (lines 352-353). -/
def splitLines (s : String) : List String :=
  (splitLinesData s.data).map String.mk

/-- `lines[i] || ""` (lines 361-362): positional access, out-of-range
indices read as the empty string. -/
def lineAt (ls : List String) (i : Nat) : String :=
  ls.getD i ""

/-- The configured maximum snippet length, `config.maxSnippetLength`
(line 246). -/
def maxSnippetLength : Nat := 300

/-- Lines 365-370: `currentLine.slice(0, max)` plus the `"..."` marker
exactly when `currentLine.length > max`. -/
def truncateSnippet (line : String) : String :=
  String.mk (line.data.take maxSnippetLength) ++
    (if line.length > maxSnippetLength then "..." else "")

/-- The body of the debounced callback (lines 344-385), as a function of
the current text, the stored snapshot and the instant: the no-op guard
(line 349), then the positional line loop (lines 356-375) emitting one
`code_change` record per differing index. Every record gets the
recomputation's instant as its timestamp (`new Date()` in the loop). -/
def computeLineChanges (currentContent previousContent : String) (ts : Nat) :
    List ChangeRecord :=
  if currentContent = previousContent then []
  else
    let currentLines := splitLines currentContent
    let previousLines := splitLines previousContent
    (List.range (max currentLines.length previousLines.length)).filterMap fun i =>
      let currentLine := lineAt currentLines i
      let previousLine := lineAt previousLines i
      if currentLine = previousLine then none
      else some (.codeChange (truncateSnippet currentLine) (i + 1) ts)

/-- One settled debounce cycle for the document at path `p`, combined with
the registration guard of `trackDocumentChanges` (line 341): an ignored
path is never tracked, so its recomputation never runs and the changelog
is untouched; otherwise the emitted records are appended under `p`
when non-empty (lines 377-382). -/
def docRecompute (userPatterns : List IgnorePattern) (cl : Changelog)
    (p currentContent previousContent : String) (ts : Nat) : Changelog :=
  if shouldIgnorePath userPatterns p then cl
  else if (computeLineChanges currentContent previousContent ts).isEmpty then cl
  else addRecords cl p (computeLineChanges currentContent previousContent ts)

/-! ## FileOpTracker: `trackAllChanges` (src/extension.js lines 393-440) -/

/-- `trackFileOperations` (lines 395-409): one `file_operation` record per
affected non-ignored path, operation `"Created"` or `"Deleted"`. -/
def trackFileOperations (userPatterns : List IgnorePattern) (cl : Changelog)
    (paths : List String) (operation : String) (ts : Nat) : Changelog :=
  paths.foldl
    (fun acc p =>
      if shouldIgnorePath userPatterns p then acc
      else addRecords acc p [.fileOperation operation ts])
    cl

/-- The first half of the rename handler for one `(oldUri, newUri)` pair
(lines 416-425): append a `renamed to basename(new)` record under the old
path when it is not ignored. -/
def renameOldSide (userPatterns : List IgnorePattern) (cl : Changelog)
    (oldPath newPath : String) (ts : Nat) : Changelog :=
  if shouldIgnorePath userPatterns oldPath then cl
  else addRecords cl oldPath
    [.fileOperation ("renamed to " ++ basename newPath) ts]

/-- The body of the `trackFileRename` loop for one pair (lines 412-437):
the old-path half above, then a `renamed from basename(old)` record under
the new path when it is not ignored (lines 427-436). -/
def trackFileRenamePair (userPatterns : List IgnorePattern) (cl : Changelog)
    (oldPath newPath : String) (ts : Nat) : Changelog :=
  if shouldIgnorePath userPatterns newPath then
    renameOldSide userPatterns cl oldPath newPath ts
  else
    addRecords (renameOldSide userPatterns cl oldPath newPath ts) newPath
      [.fileOperation ("renamed from " ++ basename oldPath) ts]

/-- `trackFileRename` (lines 411-438) over the batch of pairs. -/
def trackFileRename (userPatterns : List IgnorePattern) (cl : Changelog)
    (pairs : List (String × String)) (ts : Nat) : Changelog :=
  pairs.foldl (fun acc pr => trackFileRenamePair userPatterns acc pr.1 pr.2 ts) cl

/-- The three record-producing event sources wired up in `activate`
(lines 519-529): a settled document recomputation, a create/delete
batch, or a rename batch. -/
inductive TrackEvent where
  | docEdit (p currentContent previousContent : String) (ts : Nat)
  | fileOp (paths : List String) (operation : String) (ts : Nat)
  | rename (pairs : List (String × String)) (ts : Nat)

/-- Dispatch of one event to the matching tracker. -/
def applyEvent (userPatterns : List IgnorePattern) (cl : Changelog) :
    TrackEvent → Changelog
  | .docEdit p cur prev ts => docRecompute userPatterns cl p cur prev ts
  | .fileOp paths op ts => trackFileOperations userPatterns cl paths op ts
  | .rename pairs ts => trackFileRename userPatterns cl pairs ts

/-- A whole history of tracking events applied in order. -/
def applyEvents (userPatterns : List IgnorePattern) (cl : Changelog)
    (events : List TrackEvent) : Changelog :=
  events.foldl (applyEvent userPatterns) cl

/-! ## ActivityAggregator: `generateActivityContent` and `logActivity`
(src/extension.js lines 442-484) -/

/-- One bullet line of the rendered entry (lines 457-469): `- **HH:MM**:`
followed by `Modified line N:` and the backtick-quoted snippet for a
code change, or the operation text for a file operation. -/
def renderChange (change : ChangeRecord) : String :=
  match change with
  | .codeChange snippet lines ts =>
      "- **" ++ formatHM ts ++ "**: Modified line " ++ toString lines ++
        ":\n  `" ++ snippet ++ "`\n"
  | .fileOperation operation ts =>
      "- **" ++ formatHM ts ++ "**: " ++ operation ++ "\n"

/-- One per-file section (lines 448-472): `### basename`, the directory
relative to the workspace root (literal `workspace root` when empty),
then the file's records in order. -/
def fileSection (rootPath filePath : String) (changes : List ChangeRecord) : String :=
  "### " ++ basename filePath ++ "\n*" ++
    (if relativePath rootPath (dirname filePath) = "" then "workspace root"
     else relativePath rootPath (dirname filePath)) ++ "*\n" ++
    String.join (changes.map renderChange) ++ "\n"

/-- `generateActivityContent` (lines 442-476): returns `null` when the
changelog has no keys (line 443, changelog untouched), otherwise renders
the header (`dateStr`/`timeStr` stand for the locale renderings of
`new Date()`) and every section, then synchronously resets
`intervalChangeLog = {}` (line 474) before returning. The pair is
(returned content, changelog after the call). -/
def generateActivityContent (rootPath dateStr timeStr : String) (cl : Changelog) :
    Option String × Changelog :=
  if cl.isEmpty then (none, cl)
  else
    (some ("## " ++ dateStr ++ " " ++ timeStr ++ "\n\n" ++
       String.join (cl.map fun pr => fileSection rootPath pr.1 pr.2)), [])

/-- `logActivity` (lines 481-484): drain, then call `updateDiaryEntry`
only when the drain yielded content. The first component is `none` when
no remote interaction happens at all, and `some r` when
`updateDiaryEntry` runs with outcome `r`; the second component is the
changelog after the cycle. -/
def logActivity (rootPath dateStr timeStr entryTimeStr : String) (cl : Changelog)
    (fetch : FetchResult) : Option (Except Nat WriteRequest) × Changelog :=
  match generateActivityContent rootPath dateStr timeStr cl with
  | (none, cl') => (none, cl')
  | (some content, cl') => (some (updateDiaryEntry entryTimeStr content fetch), cl')

/-! ## The earlier event-based tracker (src/unnamed/part_000) -/

/-- Is `c` one of the whitespace characters relevant here? Models JS
whitespace for `String.prototype.trim`. -/
def isJsSpace (c : Char) : Bool :=
  c = ' ' || c = '\t' || c = '\n' || c = '\r'

/-- Models JS `text.trim()`: strip leading and trailing whitespace. -/
def jsTrim (s : String) : String :=
  String.mk (((s.data.dropWhile isJsSpace).reverse.dropWhile isJsSpace).reverse)

/-- The `change` field pushed by `trackChanges` in the earlier variant
(src/unnamed/part_000 lines 135-139) for one raw content-change event
with inserted text `text`: `Added: "…"` when the trimmed text is
non-empty, the literal `Deleted` when it is empty. This event-based
tracker — not the line recomputation — is where the Deleted-vs-Added
distinction lives. -/
def trackChangesDescription (text : String) : String :=
  if jsTrim text = "" then "Deleted"
  else "Added: \"" ++ jsTrim text ++ "\""

/-! ## Helper lemmas -/

/-- A rendered entry always starts with its `## ` header, so it is never
the empty string. -/
theorem renderEntry_ne_empty (t c : String) : renderEntry t c ≠ "" := by
  intro h
  have hlen : (renderEntry t c).length = 0 := by rw [h]; rfl
  unfold renderEntry at hlen
  simp only [String.length_append] at hlen
  have h3 : ("## " : String).length = 3 := rfl
  have h1 : ("\n" : String).length = 1 := rfl
  omega

/-- Appending to the empty document renders the bare entry. -/
theorem appendContent_empty (t c : String) :
    appendContent "" t c = renderEntry t c := by
  simp [appendContent]

/-- Appending to a non-empty document inserts the blank-line separator. -/
theorem appendContent_ne_empty (ex t c : String) (hex : ex ≠ "") :
    appendContent ex t c = ex ++ "\n\n" ++ renderEntry t c := by
  simp [appendContent, hex]

theorem recordsOf_addRecords_self (cl : Changelog) (p : String)
    (recs : List ChangeRecord) :
    recordsOf (addRecords cl p recs) p = recordsOf cl p ++ recs := by
  induction cl with
  | nil => simp [addRecords, recordsOf]
  | cons hd t ih =>
    obtain ⟨q, rs⟩ := hd
    by_cases h : q = p
    · simp [addRecords, recordsOf, h]
    · simp [addRecords, recordsOf, h, ih]

theorem recordsOf_addRecords_other (cl : Changelog) (p q : String)
    (recs : List ChangeRecord) (h : q ≠ p) :
    recordsOf (addRecords cl p recs) q = recordsOf cl q := by
  induction cl with
  | nil => simp [addRecords, recordsOf, Ne.symm h]
  | cons hd t ih =>
    obtain ⟨r, rs⟩ := hd
    by_cases hr : r = p
    · subst hr
      simp [addRecords, recordsOf, Ne.symm h]
    · simp [addRecords, recordsOf, hr, ih]

theorem mem_keys_addRecords (cl : Changelog) (p q : String)
    (recs : List ChangeRecord) (h : q ≠ p) :
    q ∈ keys (addRecords cl p recs) ↔ q ∈ keys cl := by
  induction cl with
  | nil => simp [addRecords, keys, h]
  | cons hd t ih =>
    obtain ⟨r, rs⟩ := hd
    by_cases hr : r = p
    · subst hr
      simp [addRecords, keys]
    · simp [addRecords, keys, hr] at ih ⊢
      tauto

/-! ## Claim theorems -/

/-- C1: the written-back content is the decoded existing content, a
blank-line separator exactly when the existing content is non-empty, the
`## HH:MM:SS` entry header and the aggregated content; appending E1 to an
empty document then E2 produces `E1 ++ "\n\n" ++ E2` (entries rendered
with the same rule) with both entries verbatim, and the existing content
is always preserved as a prefix. -/
theorem C1_append_roundtrip (t1 c1 t2 c2 ex t c : String) (hex : ex ≠ "") :
    appendContent "" t1 c1 = renderEntry t1 c1 ∧
    appendContent ex t c = ex ++ "\n\n" ++ renderEntry t c ∧
    appendContent (appendContent "" t1 c1) t2 c2 =
      renderEntry t1 c1 ++ "\n\n" ++ renderEntry t2 c2 ∧
    (∃ appended, appendContent ex t c = ex ++ appended) := by
  refine ⟨appendContent_empty t1 c1, appendContent_ne_empty ex t c hex, ?_, ?_⟩
  · rw [appendContent_empty]
    exact appendContent_ne_empty _ t2 c2 (renderEntry_ne_empty t1 c1)
  · refine ⟨"\n\n" ++ renderEntry t c, ?_⟩
    rw [appendContent_ne_empty ex t c hex, String.append_assoc]

theorem C1_witness :
    appendContent "" "10:00:00" "E1" = renderEntry "10:00:00" "E1" ∧
    appendContent "X" "10:00:00" "E1" = "X" ++ "\n\n" ++ renderEntry "10:00:00" "E1" ∧
    appendContent (appendContent "" "10:00:00" "E1") "10:00:01" "E2" =
      renderEntry "10:00:00" "E1" ++ "\n\n" ++ renderEntry "10:00:01" "E2" ∧
    (∃ appended, appendContent "X" "10:00:00" "E1" = "X" ++ appended) :=
  C1_append_roundtrip "10:00:00" "E1" "10:00:01" "E2" "X" "10:00:00" "E1" (by decide)

/-- C2: a not-found fetch yields a create (empty existing content, no
revision token); a successful fetch yields an update carrying exactly the
fetched revision token; any other fetch failure aborts the operation with
that error. -/
theorem C2_revision_token (t c sha ex : String) (e : Nat) (hsha : sha ≠ "") :
    updateDiaryEntry t c .notFound =
      .ok ⟨appendContent "" t c, none⟩ ∧
    updateDiaryEntry t c (.found sha ex) =
      .ok ⟨appendContent ex t c, some sha⟩ ∧
    updateDiaryEntry t c (.failed e) = .error e := by
  simp [updateDiaryEntry, hsha]

theorem C2_witness :
    updateDiaryEntry "10:00:00" "E" .notFound =
      .ok ⟨appendContent "" "10:00:00" "E", none⟩ ∧
    updateDiaryEntry "10:00:00" "E" (.found "abc123" "old") =
      .ok ⟨appendContent "old" "10:00:00" "E", some "abc123"⟩ ∧
    updateDiaryEntry "10:00:00" "E" (.failed 500) = .error 500 :=
  C2_revision_token "10:00:00" "E" "abc123" "old" 500 (by decide)

/-- C3: when the changelog is non-empty, the drain itself returns content
and leaves the changelog empty; the changelog is empty after the whole
flush cycle for every fetch/write outcome, so in particular a failed
remote interaction still finds the changelog already cleared and that
cycle's records are lost. -/
theorem C3_drain_clears_unconditionally
    (rootPath dateStr timeStr entryTimeStr : String) (cl : Changelog) (e : Nat)
    (hne : cl ≠ []) :
    (∃ content,
       generateActivityContent rootPath dateStr timeStr cl = (some content, [])) ∧
    (∀ fetch, (logActivity rootPath dateStr timeStr entryTimeStr cl fetch).2 = []) ∧
    (logActivity rootPath dateStr timeStr entryTimeStr cl (.failed e)).1 =
      some (.error e) := by
  obtain ⟨hd, tl, rfl⟩ := List.exists_cons_of_ne_nil hne
  exact ⟨⟨_, rfl⟩, fun fetch => rfl, rfl⟩

theorem C3_witness :
    (∃ content,
       generateActivityContent "/w" "1/1/2026" "10:00:00"
         [("/w/a.ts", [])] = (some content, [])) ∧
    (∀ fetch,
       (logActivity "/w" "1/1/2026" "10:00:00" "10:00:01"
         [("/w/a.ts", [])] fetch).2 = []) ∧
    (logActivity "/w" "1/1/2026" "10:00:00" "10:00:01"
       [("/w/a.ts", [])] (.failed 500)).1 = some (.error 500) :=
  C3_drain_clears_unconditionally "/w" "1/1/2026" "10:00:00" "10:00:01"
    [("/w/a.ts", [])] 500 (by decide)

/-- C9: draining an empty changelog returns nothing, leaves the changelog
empty, and the flush cycle performs no remote interaction at all. -/
theorem C9_empty_drain (rootPath dateStr timeStr entryTimeStr : String)
    (fetch : FetchResult) :
    generateActivityContent rootPath dateStr timeStr [] = (none, []) ∧
    logActivity rootPath dateStr timeStr entryTimeStr [] fetch = (none, []) := by
  simp [generateActivityContent, logActivity]

/-- C6: a line longer than the configured maximum is recorded as exactly
its first `maxSnippetLength` characters followed by the `"..."` marker; a
line at or under the limit is recorded verbatim with no marker; no
snippet exceeds the maximum plus the marker length. -/
theorem C6_truncation (line : String) :
    (line.length > maxSnippetLength →
       truncateSnippet line =
         String.mk (line.data.take maxSnippetLength) ++ "...") ∧
    (line.length ≤ maxSnippetLength → truncateSnippet line = line) ∧
    (truncateSnippet line).length ≤ maxSnippetLength + 3 := by
  refine ⟨fun h => by simp [truncateSnippet, h], fun h => ?_, ?_⟩
  · have htake : line.data.take maxSnippetLength = line.data :=
      List.take_of_length_le h
    simp [truncateSnippet, Nat.not_lt.mpr h, htake]
  · have hbound : (String.mk (line.data.take maxSnippetLength)).length ≤ maxSnippetLength :=
      List.length_take_le maxSnippetLength line.data
    have hmarker : ("..." : String).length = 3 := rfl
    have hempty : ("" : String).length = 0 := rfl
    unfold truncateSnippet
    by_cases h : line.length > maxSnippetLength
    · rw [if_pos h, String.length_append]
      omega
    · rw [if_neg h, String.length_append]
      omega

set_option maxRecDepth 10000 in
theorem C6_witness :
    truncateSnippet (String.mk (List.replicate 301 'a')) =
      String.mk (List.replicate 300 'a') ++ "..." ∧
    truncateSnippet "ab" = "ab" := by
  constructor
  · rw [(C6_truncation (String.mk (List.replicate 301 'a'))).1 (by decide)]
    decide
  · exact (C6_truncation "ab").2.1 (by decide)

/-- The recomputation for distinct texts, with the outer no-op guard
discharged. -/
theorem computeLineChanges_eq (cur prev : String) (ts : Nat) (h : cur ≠ prev) :
    computeLineChanges cur prev ts =
      (List.range (max (splitLines cur).length (splitLines prev).length)).filterMap
        (fun i =>
          if lineAt (splitLines cur) i = lineAt (splitLines prev) i then none
          else some (.codeChange (truncateSnippet (lineAt (splitLines cur) i))
            (i + 1) ts)) := by
  unfold computeLineChanges
  rw [if_neg h]

/-- Membership characterization of the emitted records: exactly one record
per index (within the padded range) whose current line differs from the
previous line. -/
theorem mem_computeLineChanges {cur prev : String} {ts : Nat} {r : ChangeRecord} :
    r ∈ computeLineChanges cur prev ts ↔
      ∃ i, i < max (splitLines cur).length (splitLines prev).length ∧
        lineAt (splitLines cur) i ≠ lineAt (splitLines prev) i ∧
        r = .codeChange (truncateSnippet (lineAt (splitLines cur) i)) (i + 1) ts := by
  by_cases h : cur = prev
  · subst h
    simp [computeLineChanges]
  · rw [computeLineChanges_eq cur prev ts h, List.mem_filterMap]
    constructor
    · rintro ⟨i, hi, hf⟩
      rw [List.mem_range] at hi
      by_cases hline : lineAt (splitLines cur) i = lineAt (splitLines prev) i
      · rw [if_pos hline] at hf
        exact absurd hf (by simp)
      · rw [if_neg hline] at hf
        exact ⟨i, hi, hline, (Option.some.inj hf).symm⟩
    · rintro ⟨i, hi, hline, rfl⟩
      exact ⟨i, List.mem_range.mpr hi, by rw [if_neg hline]⟩

/-- C4: the recomputation is a positional line diff over indices
`0..max(len(current), len(previous))-1` with out-of-range lines read as
`""`: a record appears exactly for each differing index; snapshot
`"foo\nbar"` becoming `"foo\nbaz"` emits exactly one record with line
number 2 and snippet `"baz"`; identical texts emit nothing. -/
theorem C4_positional_diff :
    (∀ ts, computeLineChanges "foo\nbaz" "foo\nbar" ts =
       [ChangeRecord.codeChange "baz" 2 ts]) ∧
    (∀ s ts, computeLineChanges s s ts = []) ∧
    (∀ cur prev ts r, r ∈ computeLineChanges cur prev ts →
       ∃ i, i < max (splitLines cur).length (splitLines prev).length ∧
         lineAt (splitLines cur) i ≠ lineAt (splitLines prev) i ∧
         r = .codeChange (truncateSnippet (lineAt (splitLines cur) i)) (i + 1) ts) ∧
    (∀ cur prev ts i, i < max (splitLines cur).length (splitLines prev).length →
       lineAt (splitLines cur) i ≠ lineAt (splitLines prev) i →
       ChangeRecord.codeChange (truncateSnippet (lineAt (splitLines cur) i)) (i + 1) ts
         ∈ computeLineChanges cur prev ts) := by
  refine ⟨fun ts => rfl, fun s ts => by simp [computeLineChanges], ?_, ?_⟩
  · intro cur prev ts r h
    exact mem_computeLineChanges.mp h
  · intro cur prev ts i hi hline
    exact mem_computeLineChanges.mpr ⟨i, hi, hline, rfl⟩

theorem C4_witness :
    ChangeRecord.codeChange (truncateSnippet (lineAt (splitLines "a") 0)) 1 0
      ∈ computeLineChanges "a" "b" 0 :=
  C4_positional_diff.2.2.2 "a" "b" 0 0 (by decide) (by decide)

/-- C5: the claim as stated is false. In the recomputation, the record
emitted when the trimmed current line is empty (current line `""` against
previous line `"x"`) has the same kind as the record emitted for a
non-empty modified line (current `"y"` against previous `"x"`) — both
carry the single kind `"code_change"` — so there is no distinct
line-deleted kind the claim requires for the empty-trimmed case. -/
theorem C5_counterexample :
    ¬ ∃ kindDeleted kindModified : String,
        kindDeleted ≠ kindModified ∧
        (computeLineChanges "" "x" 0).map ChangeRecord.kind = [kindDeleted] ∧
        (computeLineChanges "y" "x" 0).map ChangeRecord.kind = [kindModified] := by
  rintro ⟨kd, km, hne, h1, h2⟩
  have e1 : (computeLineChanges "" "x" 0).map ChangeRecord.kind = ["code_change"] := by
    decide
  have e2 : (computeLineChanges "y" "x" 0).map ChangeRecord.kind = ["code_change"] := by
    decide
  rw [e1] at h1
  rw [e2] at h2
  have hkd : kd = "code_change" := by
    injection h1 with h _
    exact h.symm
  have hkm : km = "code_change" := by
    injection h2 with h _
    exact h.symm
  exact hne (hkd.trans hkm.symm)

/-- C5 (amended): every record the recomputation emits is of the single
kind `"code_change"`, carrying the truncated snippet of the current line
at a differing index — also when that line's trimmed text is empty — with
line number index+1; no line-deleted kind is ever emitted there. The
Deleted-vs-Added distinction lives only in the earlier event-based
tracker, whose record description is `Deleted` for empty-trimmed inserted
text and `Added: "…"` otherwise. -/
theorem C5_line_kind (cur prev : String) (ts : Nat) (r : ChangeRecord)
    (h : r ∈ computeLineChanges cur prev ts) :
    r.kind = "code_change" ∧
    (∃ i, i < max (splitLines cur).length (splitLines prev).length ∧
       lineAt (splitLines cur) i ≠ lineAt (splitLines prev) i ∧
       r = .codeChange (truncateSnippet (lineAt (splitLines cur) i)) (i + 1) ts) ∧
    trackChangesDescription "" = "Deleted" ∧
    trackChangesDescription "x" = "Added: \"x\"" := by
  obtain ⟨i, hi, hline, rfl⟩ := mem_computeLineChanges.mp h
  exact ⟨rfl, ⟨i, hi, hline, rfl⟩, rfl, by decide⟩

theorem C5_witness :
    (ChangeRecord.codeChange "" 1 0).kind = "code_change" ∧
    (∃ i, i < max (splitLines "").length (splitLines "x").length ∧
       lineAt (splitLines "") i ≠ lineAt (splitLines "x") i ∧
       ChangeRecord.codeChange "" 1 0 =
         .codeChange (truncateSnippet (lineAt (splitLines "") i)) (i + 1) 0) ∧
    trackChangesDescription "" = "Deleted" ∧
    trackChangesDescription "x" = "Added: \"x\"" :=
  C5_line_kind "" "x" 0 (.codeChange "" 1 0) (by decide)

/-- A path whose ignore flag is `true` stays out of the keys across one
guarded conditional append at some other (non-ignored) key. -/
theorem not_mem_keys_condAdd (u : List IgnorePattern) (p q : String)
    (hIgn : shouldIgnorePath u p = true) (cl : Changelog)
    (recs : List ChangeRecord) (h : p ∉ keys cl) :
    p ∉ keys (if shouldIgnorePath u q then cl else addRecords cl q recs) := by
  by_cases hq : shouldIgnorePath u q
  · rw [if_pos hq]
    exact h
  · rw [if_neg hq]
    intro hmem
    have hne : p ≠ q := fun e => hq (e ▸ hIgn)
    exact h ((mem_keys_addRecords cl q p recs hne).mp hmem)

theorem not_mem_keys_docRecompute (u : List IgnorePattern) (p : String)
    (hIgn : shouldIgnorePath u p = true) (q cur prev : String) (ts : Nat)
    (cl : Changelog) (h : p ∉ keys cl) :
    p ∉ keys (docRecompute u cl q cur prev ts) := by
  unfold docRecompute
  by_cases hq : shouldIgnorePath u q
  · rw [if_pos hq]
    exact h
  · rw [if_neg hq]
    by_cases hc : (computeLineChanges cur prev ts).isEmpty
    · rw [if_pos hc]
      exact h
    · rw [if_neg hc]
      intro hmem
      have hne : p ≠ q := fun e => hq (e ▸ hIgn)
      exact h ((mem_keys_addRecords cl q p _ hne).mp hmem)

theorem not_mem_keys_trackFileOperations (u : List IgnorePattern) (p : String)
    (hIgn : shouldIgnorePath u p = true) (paths : List String) (op : String)
    (ts : Nat) :
    ∀ cl : Changelog, p ∉ keys cl →
      p ∉ keys (trackFileOperations u cl paths op ts) := by
  induction paths with
  | nil => exact fun cl h => h
  | cons q t ih =>
    intro cl h
    show p ∉ keys (trackFileOperations u
      (if shouldIgnorePath u q then cl
       else addRecords cl q [.fileOperation op ts]) t op ts)
    exact ih _ (not_mem_keys_condAdd u p q hIgn cl _ h)

theorem not_mem_keys_trackFileRenamePair (u : List IgnorePattern) (p : String)
    (hIgn : shouldIgnorePath u p = true) (oldPath newPath : String) (ts : Nat)
    (cl : Changelog) (h : p ∉ keys cl) :
    p ∉ keys (trackFileRenamePair u cl oldPath newPath ts) :=
  not_mem_keys_condAdd u p newPath hIgn _ _
    (not_mem_keys_condAdd u p oldPath hIgn cl _ h)

theorem not_mem_keys_trackFileRename (u : List IgnorePattern) (p : String)
    (hIgn : shouldIgnorePath u p = true) (pairs : List (String × String))
    (ts : Nat) :
    ∀ cl : Changelog, p ∉ keys cl → p ∉ keys (trackFileRename u cl pairs ts) := by
  induction pairs with
  | nil => exact fun cl h => h
  | cons pr t ih =>
    intro cl h
    show p ∉ keys (trackFileRename u
      (trackFileRenamePair u cl pr.1 pr.2 ts) t ts)
    exact ih _ (not_mem_keys_trackFileRenamePair u p hIgn pr.1 pr.2 ts cl h)

theorem not_mem_keys_applyEvent (u : List IgnorePattern) (p : String)
    (hIgn : shouldIgnorePath u p = true) (ev : TrackEvent) (cl : Changelog)
    (h : p ∉ keys cl) : p ∉ keys (applyEvent u cl ev) := by
  cases ev with
  | docEdit q cur prev ts => exact not_mem_keys_docRecompute u p hIgn q cur prev ts cl h
  | fileOp paths op ts => exact not_mem_keys_trackFileOperations u p hIgn paths op ts cl h
  | rename pairs ts => exact not_mem_keys_trackFileRename u p hIgn pairs ts cl h

/-- C7: a path the filter ignores never becomes a changelog key, whatever
sequence of document recomputations, create/delete batches and rename
batches is applied. -/
theorem C7_ignored_never_keys (u : List IgnorePattern) (p : String)
    (events : List TrackEvent) (cl : Changelog)
    (hIgn : shouldIgnorePath u p = true) (h : p ∉ keys cl) :
    p ∉ keys (applyEvents u cl events) := by
  induction events generalizing cl with
  | nil => exact h
  | cons ev t ih =>
    show p ∉ keys (applyEvents u (applyEvent u cl ev) t)
    exact ih (applyEvent u cl ev) (not_mem_keys_applyEvent u p hIgn ev cl h)

theorem C7_witness :
    "/w/node_modules/a.js" ∉ keys (applyEvents [] []
      [TrackEvent.fileOp ["/w/node_modules/a.js"] "Created" 0,
       TrackEvent.docEdit "/w/node_modules/a.js" "x" "" 1,
       TrackEvent.rename [("/w/node_modules/a.js", "/w/b.log")] 2]) :=
  C7_ignored_never_keys [] "/w/node_modules/a.js"
    [TrackEvent.fileOp ["/w/node_modules/a.js"] "Created" 0,
     TrackEvent.docEdit "/w/node_modules/a.js" "x" "" 1,
     TrackEvent.rename [("/w/node_modules/a.js", "/w/b.log")] 2]
    [] (by decide) (by decide)

/-- A guarded conditional append at key `p` leaves every other key's record
sequence unchanged. -/
theorem recordsOf_condAdd_other (u : List IgnorePattern) (cl : Changelog)
    (p q : String) (recs : List ChangeRecord) (h : q ≠ p) :
    recordsOf (if shouldIgnorePath u p then cl else addRecords cl p recs) q =
      recordsOf cl q := by
  by_cases hp : shouldIgnorePath u p
  · rw [if_pos hp]
  · rw [if_neg hp, recordsOf_addRecords_other cl p q recs h]

/-- A guarded conditional append only ever extends a key's record
sequence. -/
theorem recordsOf_condAdd_extends (u : List IgnorePattern) (cl : Changelog)
    (p q : String) (recs : List ChangeRecord) :
    ∃ appended,
      recordsOf (if shouldIgnorePath u p then cl else addRecords cl p recs) q =
        recordsOf cl q ++ appended := by
  by_cases hp : shouldIgnorePath u p
  · exact ⟨[], by rw [if_pos hp, List.append_nil]⟩
  · by_cases hq : q = p
    · subst hq
      exact ⟨recs, by rw [if_neg hp, recordsOf_addRecords_self]⟩
    · exact ⟨[], by rw [if_neg hp, recordsOf_addRecords_other cl p q recs hq,
        List.append_nil]⟩

/-- One rename pair only ever extends record sequences (at any key). -/
theorem recordsOf_trackFileRenamePair_extends (u : List IgnorePattern)
    (cl : Changelog) (oldPath newPath q : String) (ts : Nat) :
    ∃ appended,
      recordsOf (trackFileRenamePair u cl oldPath newPath ts) q =
        recordsOf cl q ++ appended := by
  obtain ⟨a1, h1⟩ := recordsOf_condAdd_extends u cl oldPath q
    [ChangeRecord.fileOperation ("renamed to " ++ basename newPath) ts]
  obtain ⟨a2, h2⟩ := recordsOf_condAdd_extends u
    (renameOldSide u cl oldPath newPath ts) newPath q
    [ChangeRecord.fileOperation ("renamed from " ++ basename oldPath) ts]
  have h1' : recordsOf (renameOldSide u cl oldPath newPath ts) q =
      recordsOf cl q ++ a1 := h1
  have h2' : recordsOf (trackFileRenamePair u cl oldPath newPath ts) q =
      recordsOf (renameOldSide u cl oldPath newPath ts) q ++ a2 := h2
  exact ⟨a1 ++ a2, by rw [h2', h1', List.append_assoc]⟩

/-- C8: for one rename pair, a `renamed to basename(new)` record is
appended under the old path exactly when the old path is not ignored, and
a `renamed from basename(old)` record under the new path exactly when the
new path is not ignored; each side left alone when its path is ignored,
and an ignored old path that was no key stays no key. Concretely,
renaming an ignored A to a non-ignored B from an empty changelog yields
only the `renamed from` record under B. -/
theorem C8_rename_records (u : List IgnorePattern) (cl : Changelog)
    (oldPath newPath : String) (ts : Nat) (hne : oldPath ≠ newPath) :
    (shouldIgnorePath u oldPath = false →
       recordsOf (trackFileRenamePair u cl oldPath newPath ts) oldPath =
         recordsOf cl oldPath ++
           [ChangeRecord.fileOperation ("renamed to " ++ basename newPath) ts]) ∧
    (shouldIgnorePath u oldPath = true →
       recordsOf (trackFileRenamePair u cl oldPath newPath ts) oldPath =
         recordsOf cl oldPath) ∧
    (shouldIgnorePath u oldPath = true → oldPath ∉ keys cl →
       oldPath ∉ keys (trackFileRenamePair u cl oldPath newPath ts)) ∧
    (shouldIgnorePath u newPath = false →
       recordsOf (trackFileRenamePair u cl oldPath newPath ts) newPath =
         recordsOf cl newPath ++
           [ChangeRecord.fileOperation ("renamed from " ++ basename oldPath) ts]) ∧
    (shouldIgnorePath u newPath = true →
       recordsOf (trackFileRenamePair u cl oldPath newPath ts) newPath =
         recordsOf cl newPath) ∧
    trackFileRenamePair [] [] "/w/node_modules/a.js" "/w/src/a.js" 0 =
      [("/w/src/a.js", [ChangeRecord.fileOperation "renamed from a.js" 0])] := by
  refine ⟨?_, ?_, ?_, ?_, ?_, by decide⟩
  · intro h0
    have h0' : ¬ shouldIgnorePath u oldPath = true := by simp [h0]
    unfold trackFileRenamePair renameOldSide
    by_cases hn : shouldIgnorePath u newPath
    · rw [if_pos hn, if_neg h0', recordsOf_addRecords_self]
    · rw [if_neg hn, if_neg h0',
        recordsOf_addRecords_other _ newPath oldPath _ hne,
        recordsOf_addRecords_self]
  · intro h1
    unfold trackFileRenamePair renameOldSide
    by_cases hn : shouldIgnorePath u newPath
    · rw [if_pos hn, if_pos h1]
    · rw [if_neg hn, if_pos h1,
        recordsOf_addRecords_other cl newPath oldPath _ hne]
  · intro h1 hk
    exact not_mem_keys_trackFileRenamePair u oldPath h1 oldPath newPath ts cl hk
  · intro h2
    have h2' : ¬ shouldIgnorePath u newPath = true := by simp [h2]
    unfold trackFileRenamePair renameOldSide
    rw [if_neg h2', recordsOf_addRecords_self]
    by_cases ho : shouldIgnorePath u oldPath
    · rw [if_pos ho]
    · rw [if_neg ho,
        recordsOf_addRecords_other cl oldPath newPath _ (Ne.symm hne)]
  · intro h3
    unfold trackFileRenamePair renameOldSide
    rw [if_pos h3]
    by_cases ho : shouldIgnorePath u oldPath
    · rw [if_pos ho]
    · rw [if_neg ho,
        recordsOf_addRecords_other cl oldPath newPath _ (Ne.symm hne)]

theorem C8_witness :
    (shouldIgnorePath [] "/w/node_modules/a.js" = false →
       recordsOf (trackFileRenamePair [] [] "/w/node_modules/a.js" "/w/src/a.js" 0)
         "/w/node_modules/a.js" =
         recordsOf [] "/w/node_modules/a.js" ++
           [ChangeRecord.fileOperation ("renamed to " ++ basename "/w/src/a.js") 0]) ∧
    (shouldIgnorePath [] "/w/node_modules/a.js" = true →
       recordsOf (trackFileRenamePair [] [] "/w/node_modules/a.js" "/w/src/a.js" 0)
         "/w/node_modules/a.js" = recordsOf [] "/w/node_modules/a.js") ∧
    (shouldIgnorePath [] "/w/node_modules/a.js" = true →
       "/w/node_modules/a.js" ∉ keys ([] : Changelog) →
       "/w/node_modules/a.js" ∉
         keys (trackFileRenamePair [] [] "/w/node_modules/a.js" "/w/src/a.js" 0)) ∧
    (shouldIgnorePath [] "/w/src/a.js" = false →
       recordsOf (trackFileRenamePair [] [] "/w/node_modules/a.js" "/w/src/a.js" 0)
         "/w/src/a.js" =
         recordsOf [] "/w/src/a.js" ++
           [ChangeRecord.fileOperation ("renamed from " ++ basename "/w/node_modules/a.js") 0]) ∧
    (shouldIgnorePath [] "/w/src/a.js" = true →
       recordsOf (trackFileRenamePair [] [] "/w/node_modules/a.js" "/w/src/a.js" 0)
         "/w/src/a.js" = recordsOf [] "/w/src/a.js") ∧
    trackFileRenamePair [] [] "/w/node_modules/a.js" "/w/src/a.js" 0 =
      [("/w/src/a.js", [ChangeRecord.fileOperation "renamed from a.js" 0])] :=
  C8_rename_records [] [] "/w/node_modules/a.js" "/w/src/a.js" 0 (by decide)

/-- C10: each record-appending operation is a frame mutation of the
changelog: every path other than the touched one(s) keeps its record
sequence unchanged, and a touched path's existing records are preserved
as a prefix with the new records appended at the end. -/
theorem C10_frame (u : List IgnorePattern) (cl : Changelog) (q : String) (ts : Nat) :
    (∀ p cur prev, q ≠ p →
       recordsOf (docRecompute u cl p cur prev ts) q = recordsOf cl q) ∧
    (∀ p cur prev, ∃ appended,
       recordsOf (docRecompute u cl p cur prev ts) p =
         recordsOf cl p ++ appended) ∧
    (∀ p op, q ≠ p →
       recordsOf (trackFileOperations u cl [p] op ts) q = recordsOf cl q) ∧
    (∀ p op, ∃ appended,
       recordsOf (trackFileOperations u cl [p] op ts) p =
         recordsOf cl p ++ appended) ∧
    (∀ oldPath newPath, q ≠ oldPath → q ≠ newPath →
       recordsOf (trackFileRenamePair u cl oldPath newPath ts) q =
         recordsOf cl q) ∧
    (∀ oldPath newPath, ∃ appended,
       recordsOf (trackFileRenamePair u cl oldPath newPath ts) oldPath =
         recordsOf cl oldPath ++ appended) ∧
    (∀ oldPath newPath, ∃ appended,
       recordsOf (trackFileRenamePair u cl oldPath newPath ts) newPath =
         recordsOf cl newPath ++ appended) := by
  refine ⟨?_, ?_, ?_, ?_, ?_, ?_, ?_⟩
  · intro p cur prev h
    unfold docRecompute
    by_cases hp : shouldIgnorePath u p
    · rw [if_pos hp]
    · rw [if_neg hp]
      by_cases hc : (computeLineChanges cur prev ts).isEmpty
      · rw [if_pos hc]
      · rw [if_neg hc, recordsOf_addRecords_other cl p q _ h]
  · intro p cur prev
    unfold docRecompute
    by_cases hp : shouldIgnorePath u p
    · exact ⟨[], by rw [if_pos hp, List.append_nil]⟩
    · by_cases hc : (computeLineChanges cur prev ts).isEmpty
      · exact ⟨[], by rw [if_neg hp, if_pos hc, List.append_nil]⟩
      · exact ⟨computeLineChanges cur prev ts,
          by rw [if_neg hp, if_neg hc, recordsOf_addRecords_self]⟩
  · intro p op h
    exact recordsOf_condAdd_other u cl p q [ChangeRecord.fileOperation op ts] h
  · intro p op
    exact recordsOf_condAdd_extends u cl p p [ChangeRecord.fileOperation op ts]
  · intro oldPath newPath hqo hqn
    have e2 : recordsOf (trackFileRenamePair u cl oldPath newPath ts) q =
        recordsOf (renameOldSide u cl oldPath newPath ts) q :=
      recordsOf_condAdd_other u (renameOldSide u cl oldPath newPath ts)
        newPath q _ hqn
    have e1 : recordsOf (renameOldSide u cl oldPath newPath ts) q =
        recordsOf cl q :=
      recordsOf_condAdd_other u cl oldPath q _ hqo
    rw [e2, e1]
  · intro oldPath newPath
    exact recordsOf_trackFileRenamePair_extends u cl oldPath newPath oldPath ts
  · intro oldPath newPath
    exact recordsOf_trackFileRenamePair_extends u cl oldPath newPath newPath ts

theorem C10_witness :
    recordsOf (trackFileOperations [] [("/a", [])] ["/b"] "Created" 0) "/a" =
      recordsOf [("/a", [])] "/a" :=
  (C10_frame [] [("/a", [])] "/a" 0).2.2.1 "/b" "Created" (by decide)

end GitDiary
